import Mathlib

/-!
Verification of the go-whisper-api client (files `main.go` and
`api/whisper/client.go`, which contain the same pipeline).

The Go code is shallowly embedded: byte streams are `String`s, the HTTP
transport, the gzip/flate decompressors and the JSON decoder are explicit
functional parameters (the code only calls into those libraries), and the
side effects of `Transcribe` are made observable in a `RunOut` record that
carries the returned value-or-error, the bytes copied to the diagnostic
stream (`os.Stderr`), and the list of requests handed to the HTTP transport.
-/

namespace Whisper

/-! ## Go string helpers (package `strings`, `path/filepath`) -/

/-- Whether `pat` occurs at the start of `s` (helper for `goContains`). -/
def listHasPrefix : List Char → List Char → Bool
  | _, [] => true
  | [], _ :: _ => false
  | a :: as, b :: bs => a == b && listHasPrefix as bs

/-- Whether `pat` occurs somewhere inside `s` (helper for `goContains`). -/
def listHasSub : List Char → List Char → Bool
  | [], pat => pat.isEmpty
  | a :: rest, pat => listHasPrefix (a :: rest) pat || listHasSub rest pat

/-- Go `strings.Contains(s, sub)`. -/
def goContains (s sub : String) : Bool :=
  listHasSub s.data sub.data

/-- Go `strings.ToLower` (ASCII letters; the header values compared against
are ASCII, where Go's Unicode lowering agrees with `Char.toLower`). -/
def goToLower (s : String) : String :=
  ⟨s.data.map Char.toLower⟩

/-- Go `strings.TrimRight(s, cutset)`: removes trailing characters that are
in `cutset`. -/
def goTrimRight (s cutset : String) : String :=
  ⟨(s.data.reverse.dropWhile (fun c => cutset.data.contains c)).reverse⟩

/-- Go `strings.TrimLeft(s, cutset)`: removes leading characters that are
in `cutset`. -/
def goTrimLeft (s cutset : String) : String :=
  ⟨s.data.dropWhile (fun c => cutset.data.contains c)⟩

/-- Go `strings.ContainsAny(s, chars)`. -/
def goContainsAny (s chars : String) : Bool :=
  s.data.any (fun c => chars.data.contains c)

/-- Go `filepath.Base` on Unix paths: empty path gives ".", a path of only
slashes gives "/", otherwise the last element after trailing slashes are
removed. -/
def filepathBase (p : String) : String :=
  if p = "" then "."
  else
    let cs := p.data.reverse.dropWhile (fun c => c == '/')
    if cs.isEmpty then "/"
    else ⟨(cs.takeWhile (fun c => c != '/')).reverse⟩

/-! ## Constants and client state (`main.go` lines 19-29) -/

def DefaultBase : String := "https://api.openai.com/v1"

def DefaultModel : String := "whisper-1"

/-- The `Client` struct. The `httpClient` field is not embedded here: the
transport it denotes is passed to `Transcribe` as an explicit function. -/
structure Client where
  apiKey : String
  baseURL : String
deriving DecidableEq

/-! ## URL construction (`main.go` lines 76-86) -/

/-- The local `baseURL` variable of `Client.URL`: the configured base URL,
or `DefaultBase` when it is empty. -/
def effectiveBase (c : Client) : String :=
  if c.baseURL = "" then DefaultBase else c.baseURL

/-- The method `Client.URL` constructs the full URL for the given relative path
(`main.go` lines 77-86). -/
def Client.URL (c : Client) (relPath : String) : String :=
  if goContains relPath "://" then relPath
  else goTrimRight (effectiveBase c) "/" ++ "/" ++ goTrimLeft relPath "/"

/-! ## Transcribe configuration and options (`main.go` lines 124-153) -/

/-- The `TranscribeConfig` struct (`main.go` lines 125-129). -/
structure TranscribeConfig where
  Model : String
  Language : String
  File : String
deriving DecidableEq

/-- A `TranscribeOption` mutates a `TranscribeConfig` (`main.go` line 132). -/
def TranscribeOption := TranscribeConfig → TranscribeConfig

/-- Option `WithModel` (`main.go` lines 135-139). -/
def WithModel (model : String) : TranscribeOption :=
  fun tc => { tc with Model := model }

/-- Option `WithLanguage` (`main.go` lines 142-146). -/
def WithLanguage (lang : String) : TranscribeOption :=
  fun tc => { tc with Language := lang }

/-- Option `WithFile` (`main.go` lines 149-153). -/
def WithFile (file : String) : TranscribeOption :=
  fun tc => { tc with File := file }

/-- The zero-valued `TranscribeConfig{}` the options are applied to
(`main.go` line 161). -/
def emptyConfig : TranscribeConfig :=
  { Model := "", Language := "", File := "" }

/-- The option-application loop of `Transcribe` (`main.go` lines 162-164). -/
def applyOpts (opts : List TranscribeOption) (tc : TranscribeConfig) : TranscribeConfig :=
  opts.foldl (fun tc opt => opt tc) tc

/-- The model-defaulting step of `Transcribe` (`main.go` lines 166-168). -/
def withDefaultModel (tc : TranscribeConfig) : TranscribeConfig :=
  if tc.Model = "" then { tc with Model := DefaultModel } else tc

/-! ## Multipart body (`mime/multipart` as used in `main.go` lines 174-195) -/

/-- One part of the multipart body: a plain form field created by
`CreateFormField`, or a file part created by `CreateFormFile` whose content
is the bytes copied into it. -/
inductive MultipartPart where
  | field (name value : String)
  | file (name filename content : String)
deriving DecidableEq

/-- Go `mime/multipart.escapeQuotes`: backslash-escapes `\` and `"`. -/
def escapeQuotes (s : String) : String :=
  ⟨s.data.foldr (fun c acc => if c == '\\' || c == '"' then '\\' :: c :: acc else c :: acc) []⟩

/-- The sorted header block `CreatePart` writes for a part: a
`Content-Disposition` for a form field, plus `Content-Type:
application/octet-stream` for a file part. -/
def partHeader : MultipartPart → String
  | .field name _ =>
      "Content-Disposition: form-data; name=\"" ++ escapeQuotes name ++ "\"\r\n"
  | .file name filename _ =>
      "Content-Disposition: form-data; name=\"" ++ escapeQuotes name ++
        "\"; filename=\"" ++ escapeQuotes filename ++ "\"\r\n" ++
        "Content-Type: application/octet-stream\r\n"

/-- The content bytes of a part. -/
def partContent : MultipartPart → String
  | .field _ value => value
  | .file _ _ content => content

/-- One part as `multipart.Writer` serialises it: the boundary line (with a
leading CRLF for every part but the first), the headers, a blank line, the
content. -/
def renderPart (boundary : String) (first : Bool) (p : MultipartPart) : String :=
  (if first then "--" ++ boundary ++ "\r\n" else "\r\n--" ++ boundary ++ "\r\n")
    ++ partHeader p ++ "\r\n" ++ partContent p

/-- Serialisation of the parts after the first one. -/
def renderRest (boundary : String) : List MultipartPart → String
  | [] => ""
  | p :: ps => renderPart boundary false p ++ renderRest boundary ps

/-- The full body `multipart.Writer` produces for the given parts,
including the closing boundary written by `Close`. -/
def renderMultipart (boundary : String) : List MultipartPart → String
  | [] => "\r\n--" ++ boundary ++ "--\r\n"
  | p :: ps => renderPart boundary true p ++ renderRest boundary ps
      ++ "\r\n--" ++ boundary ++ "--\r\n"

/-- Go `multipart.Writer.FormDataContentType`: quotes the boundary when it
contains a special character (Go's random boundaries never do; the boundary
is a parameter here). -/
def formDataContentType (boundary : String) : String :=
  if goContainsAny boundary "()<>@,;:\\\"/[]?= "
  then "multipart/form-data; boundary=\"" ++ boundary ++ "\""
  else "multipart/form-data; boundary=" ++ boundary

/-! ## Requests, responses, decoders -/

/-- The outbound HTTP request `Transcribe` builds (`main.go` lines
197-206): method, URL, the four headers it sets, and the multipart body,
kept both structurally (`parts`) and as the serialised bytes (`body`). -/
structure Request where
  method : String
  url : String
  contentType : String
  acceptEncoding : String
  accept : String
  authorization : String
  parts : List MultipartPart
  body : String
deriving DecidableEq

/-- The pieces of an `http.Response` the code reads: `StatusCode`, the
`Status` line text, the `Content-Encoding` header (empty when absent), and
the raw body bytes. -/
structure Response where
  statusCode : Nat
  status : String
  contentEncoding : String
  body : String
deriving DecidableEq

/-- Struct `Segment` (`main.go` lines 89-101). -/
structure Segment where
  id : Int
  seek : Int
  start : Float
  end_ : Float
  text : String
  tokens : List Int
  temperature : Float
  avgLogprob : Float
  compressionRatio : Float
  noSpeechProb : Float
  transient : Bool

/-- Struct `TranscribeResponse` (`main.go` lines 104-110). -/
structure TranscribeResponse where
  task : String
  language : String
  duration : Float
  segments : List Segment
  text : String

/-- The distinct failure modes of `TranscribeFile`/`Transcribe`, one per
`return nil, err` site: missing API key, empty filename, `os.Open` failure,
transport failure, `gzip.NewReader` failure, non-200 status (carrying the
formatted message), and JSON decode failure. -/
inductive TErr where
  | auth
  | validation
  | ioErr (e : String)
  | network (e : String)
  | gzipInit (e : String)
  | remote (msg : String)
  | decode (e : String)
deriving DecidableEq

/-- The body decoder chosen from the `Content-Encoding` header:
`compress/gzip`, raw DEFLATE via `compress/flate` (note: not
`compress/zlib`, so no zlib framing), or the body unchanged. -/
inductive BodyDecoder where
  | gzip
  | deflateRaw
  | identity
deriving DecidableEq

/-- The `switch strings.ToLower(resp.Header.Get("Content-Encoding"))` of
`main.go` lines 215-227. -/
def decoderFor (ce : String) : BodyDecoder :=
  if goToLower ce = "gzip" then .gzip
  else if goToLower ce = "deflate" then .deflateRaw
  else .identity

/-- The library functions the response path calls into, as oracles:
`gzipNew` models the outcome of `gzip.NewReader` on the body (`some e` when
reading the gzip header fails with error `e`), `gzipRead` the bytes the
successfully constructed gzip reader yields, `flateRead` the bytes the raw
DEFLATE reader (`flate.NewReader`, no zlib framing) yields, and
`jsonDecode` the outcome of `encoding/json` decoding into a
`TranscribeResponse`. -/
structure Codecs where
  gzipNew : String → Option String
  gzipRead : String → String
  flateRead : String → String
  jsonDecode : String → Except String TranscribeResponse

/-- The observable outcome of one call: the returned response-or-error, the
bytes copied to `os.Stderr`, and the requests handed to the HTTP
transport in order. -/
structure RunOut where
  res : Except TErr TranscribeResponse
  diag : String
  sent : List Request

/-! ## Transcribe (`main.go` lines 156-239) -/

/-- The request `Transcribe` assembles (`main.go` lines 174-206): the three
multipart parts in creation order, the URL from `Client.URL`, and the four
headers. -/
def buildRequest (c : Client) (boundary : String) (tc : TranscribeConfig) (h : String) : Request :=
  { method := "POST"
    url := c.URL "audio/transcriptions"
    contentType := formDataContentType boundary
    acceptEncoding := "gzip, deflate"
    accept := "*/*"
    authorization := "Bearer " ++ c.apiKey
    parts := [MultipartPart.field "model" tc.Model,
              MultipartPart.field "response_format" "verbose_json",
              MultipartPart.file "file" tc.File h]
    body := renderMultipart boundary
      [MultipartPart.field "model" tc.Model,
       MultipartPart.field "response_format" "verbose_json",
       MultipartPart.file "file" tc.File h] }

/-- The status check and JSON decoding (`main.go` lines 229-238), applied
to the decompressed body `decoded`: a non-200 status copies the body to
stderr and fails with `unexpected response: <Status>`; otherwise the body
is JSON-decoded. -/
def finishResponse (cod : Codecs) (resp : Response) (decoded : String) (sent : List Request) : RunOut :=
  if resp.statusCode ≠ 200 then
    { res := .error (.remote ("unexpected response: " ++ resp.status)), diag := decoded, sent := sent }
  else
    match cod.jsonDecode decoded with
    | .error e => { res := .error (.decode e), diag := "", sent := sent }
    | .ok tr => { res := .ok tr, diag := "", sent := sent }

/-- The part of `Transcribe` after option application (`main.go` lines
170-238): filename validation, request construction, the transport call,
decompressor selection, status check and decoding. -/
def transcribeCore (c : Client) (cod : Codecs) (transport : Request → Except String Response)
    (boundary : String) (h : String) (tc : TranscribeConfig) : RunOut :=
  if tc.File = "" then { res := .error .validation, diag := "", sent := [] }
  else
    match transport (buildRequest c boundary tc h) with
    | .error e => { res := .error (.network e), diag := "", sent := [buildRequest c boundary tc h] }
    | .ok resp =>
      match decoderFor resp.contentEncoding with
      | .gzip =>
        match cod.gzipNew resp.body with
        | some e => { res := .error (.gzipInit e), diag := "", sent := [buildRequest c boundary tc h] }
        | none => finishResponse cod resp (cod.gzipRead resp.body) [buildRequest c boundary tc h]
      | .deflateRaw => finishResponse cod resp (cod.flateRead resp.body) [buildRequest c boundary tc h]
      | .identity => finishResponse cod resp resp.body [buildRequest c boundary tc h]

/-- The method `Client.Transcribe` (`main.go` lines 156-239). `h` is the content of
the input stream, `boundary` the boundary the multipart writer drew, `cod`
the compression/JSON library semantics and `transport` the HTTP client. -/
def Client.Transcribe (c : Client) (cod : Codecs) (transport : Request → Except String Response)
    (boundary : String) (h : String) (opts : List TranscribeOption) : RunOut :=
  if c.apiKey = "" then { res := .error .auth, diag := "", sent := [] }
  else transcribeCore c cod transport boundary h (withDefaultModel (applyOpts opts emptyConfig))

/-- The method `Client.TranscribeFile` (`main.go` lines 113-122). `fs` models
`os.Open` plus reading: the content of the file at a path, or the open
error. -/
def Client.TranscribeFile (c : Client) (cod : Codecs) (transport : Request → Except String Response)
    (boundary : String) (fs : String → Except String String) (file : String)
    (opts : List TranscribeOption) : RunOut :=
  match fs file with
  | .error e => { res := .error (.ioErr e), diag := "", sent := [] }
  | .ok content =>
      c.Transcribe cod transport boundary content (WithFile (filepathBase file) :: opts)

/-! ## Spec-side and claim-side auxiliary definitions -/

/-- Stated from the spec's words for C6: a string with all its trailing
slashes removed (to be compared with the code's `goTrimRight _ "/"`). -/
def stripTrailingSlashes (s : String) : String :=
  ⟨(s.data.reverse.dropWhile (fun c => c == '/')).reverse⟩

/-- Stated from the spec's words for C6: a string with all its leading
slashes removed (to be compared with the code's `goTrimLeft _ "/"`). -/
def stripLeadingSlashes (s : String) : String :=
  ⟨s.data.dropWhile (fun c => c == '/')⟩

/-- The three option constructors the package exports, as syntax (C9
quantifies over option sequences built from `WithModel`, `WithLanguage`
and `WithFile`). -/
inductive OptSpec where
  | model (s : String)
  | language (s : String)
  | file (s : String)
deriving DecidableEq

/-- The option a syntactic option denotes. -/
def OptSpec.denote : OptSpec → TranscribeOption
  | .model s => WithModel s
  | .language s => WithLanguage s
  | .file s => WithFile s

/-- A list of syntactic options as a list of options. -/
def denoteOpts (l : List OptSpec) : List TranscribeOption :=
  l.map OptSpec.denote

/-- Whether an option is not a `WithLanguage` option. -/
def OptSpec.touchesNonLanguage : OptSpec → Bool
  | .language _ => false
  | _ => true

/-! ## Concrete instances used to instantiate the theorems -/

/-- A concrete codec semantics: `gzip.NewReader` succeeds exactly on bodies
beginning with the gzip magic bytes `1f 8b` and the DEFLATE method byte
`08` (Go's `gzip.NewReader` rejects any body that does not start so), the
readers yield placeholder bytes, and JSON decoding fails. Only used to
exhibit concrete runs; every theorem quantifies over the codecs. -/
def refCodecs : Codecs where
  gzipNew := fun body =>
    if body.data.take 3 = ['\x1f', '\x8b', '\x08'] then none
    else some "gzip: invalid header"
  gzipRead := fun _ => ""
  flateRead := fun s => s
  jsonDecode := fun _ => .error "unexpected end of JSON input"

/-- A transport that always fails at the network layer. -/
def refusedTransport : Request → Except String Response :=
  fun _ => .error "connection refused"

/-! ## Helper lemmas -/

/-- Defaulting the model does not change the configured filename. -/
theorem withDefaultModel_File (tc : TranscribeConfig) :
    (withDefaultModel tc).File = tc.File := by
  unfold withDefaultModel; split <;> rfl

/-- Defaulting the model yields `whisper-1` exactly when the configured
model is empty. -/
theorem withDefaultModel_Model (tc : TranscribeConfig) :
    (withDefaultModel tc).Model = if tc.Model = "" then DefaultModel else tc.Model := by
  unfold withDefaultModel; split <;> rfl

/-- The status/decode stage sends nothing further. -/
theorem finishResponse_sent (cod : Codecs) (resp : Response) (decoded : String)
    (sent : List Request) : (finishResponse cod resp decoded sent).sent = sent := by
  unfold finishResponse
  split
  · rfl
  · split <;> rfl

/-- Once the filename check passes, exactly the built request is handed to
the transport, on every response path. -/
theorem transcribeCore_sent (c : Client) (cod : Codecs)
    (transport : Request → Except String Response) (boundary h : String)
    (tc : TranscribeConfig) (hfile : tc.File ≠ "") :
    (transcribeCore c cod transport boundary h tc).sent
      = [buildRequest c boundary tc h] := by
  unfold transcribeCore
  rw [if_neg hfile]
  split
  · rfl
  · split
    · split
      · rfl
      · exact finishResponse_sent ..
    · exact finishResponse_sent ..
    · exact finishResponse_sent ..

/-! ## Claims -/

/-- C1: for every sequence of transcribe options and every input stream, if
the client's `apiKey` is empty then `Transcribe` fails with the
authentication error and the HTTP transport is never invoked (no request is
sent, for any transport). -/
theorem auth_error_before_network (c : Client) (cod : Codecs)
    (transport : Request → Except String Response) (boundary h : String)
    (opts : List TranscribeOption) (hk : c.apiKey = "") :
    c.Transcribe cod transport boundary h opts
      = { res := .error .auth, diag := "", sent := [] } := by
  simp [Client.Transcribe, hk]

/-- C1 witness: a concrete client with an empty key. -/
theorem auth_error_before_network_witness :
    Client.Transcribe ⟨"", ""⟩ refCodecs refusedTransport "bnd" "audio-bytes" []
      = { res := .error .auth, diag := "", sent := [] } :=
  auth_error_before_network ⟨"", ""⟩ refCodecs refusedTransport "bnd" "audio-bytes" [] rfl

/-- C2: for every non-empty credential and every option sequence whose
resulting configuration has an empty filename, `Transcribe` fails with the
validation error and the HTTP transport is never invoked (no request is
sent, for any transport). -/
theorem validation_error_before_network (c : Client) (cod : Codecs)
    (transport : Request → Except String Response) (boundary h : String)
    (opts : List TranscribeOption) (hk : c.apiKey ≠ "")
    (hf : (applyOpts opts emptyConfig).File = "") :
    c.Transcribe cod transport boundary h opts
      = { res := .error .validation, diag := "", sent := [] } := by
  simp only [Client.Transcribe, if_neg hk, transcribeCore, withDefaultModel_File, hf]
  simp

/-- C2 witness: a concrete client with a key and options that never set the
filename. -/
theorem validation_error_before_network_witness :
    Client.Transcribe ⟨"sk-key", ""⟩ refCodecs refusedTransport "bnd" "audio-bytes"
        [WithLanguage "en"]
      = { res := .error .validation, diag := "", sent := [] } :=
  validation_error_before_network ⟨"sk-key", ""⟩ refCodecs refusedTransport "bnd"
    "audio-bytes" [WithLanguage "en"] (by decide) rfl

/-- Membership in the one-character cutset `"/"` is equality with `'/'`. -/
theorem contains_slash (c : Char) : (String.data "/").contains c = (c == '/') := by
  show List.elem c ['/'] = (c == '/')
  cases h : c == '/' <;> simp [List.elem, h]

/-- Go `strings.TrimRight` with cutset `"/"` strips exactly the trailing
slashes. -/
theorem goTrimRight_slash (s : String) : goTrimRight s "/" = stripTrailingSlashes s := by
  unfold goTrimRight stripTrailingSlashes
  rw [show (fun c => (String.data "/").contains c) = (fun c => c == '/') from
    funext contains_slash]

/-- Go `strings.TrimLeft` with cutset `"/"` strips exactly the leading
slashes. -/
theorem goTrimLeft_slash (s : String) : goTrimLeft s "/" = stripLeadingSlashes s := by
  unfold goTrimLeft stripLeadingSlashes
  rw [show (fun c => (String.data "/").contains c) = (fun c => c == '/') from
    funext contains_slash]

/-- The head of `dropWhile p` never satisfies `p`. -/
theorem head?_dropWhile_not (p : Char → Bool) :
    ∀ (l : List Char) (c : Char), (l.dropWhile p).head? = some c → p c = false := by
  intro l
  induction l with
  | nil => intro c h; simp [List.dropWhile] at h
  | cons a l ih =>
    intro c h
    rw [List.dropWhile_cons] at h
    by_cases ha : p a
    · rw [if_pos ha] at h; exact ih c h
    · rw [if_neg ha] at h
      simp only [List.head?_cons, Option.some.injEq] at h
      subst h
      exact Bool.eq_false_iff.mpr ha

/-- The part `takeWhile (· == '/')` keeps is a run of slashes. -/
theorem takeWhile_slash_replicate (l : List Char) :
    l.takeWhile (fun c => c == '/')
      = List.replicate (l.takeWhile (fun c => c == '/')).length '/' := by
  rw [List.eq_replicate_iff]
  refine ⟨rfl, fun b hb => ?_⟩
  have h := List.mem_takeWhile_imp hb
  exact eq_of_beq h

/-- C6: for every base URL and every relative path without a scheme
separator, `Client.URL` returns the base (default host when unconfigured)
and the relative path joined by exactly one slash: the result is the base
with all trailing slashes removed, one slash, and the relative path with
all leading slashes removed, and the two trimmed halves drop nothing but
slashes and keep no slash at the join point. -/
theorem url_join_single_slash (key base rel : String)
    (hrel : goContains rel "://" = false) :
    Client.URL ⟨key, base⟩ rel
        = stripTrailingSlashes (effectiveBase ⟨key, base⟩) ++ "/" ++ stripLeadingSlashes rel
      ∧ (∃ m, (effectiveBase ⟨key, base⟩).data
          = (stripTrailingSlashes (effectiveBase ⟨key, base⟩)).data ++ List.replicate m '/')
      ∧ (∃ n, rel.data = List.replicate n '/' ++ (stripLeadingSlashes rel).data)
      ∧ (stripTrailingSlashes (effectiveBase ⟨key, base⟩)).data.getLast? ≠ some '/'
      ∧ (stripLeadingSlashes rel).data.head? ≠ some '/' := by
  refine ⟨?_, ?_, ?_, ?_, ?_⟩
  · simp [Client.URL, hrel, goTrimRight_slash, goTrimLeft_slash]
  · refine ⟨((effectiveBase ⟨key, base⟩).data.reverse.takeWhile (fun c => c == '/')).length, ?_⟩
    unfold stripTrailingSlashes
    conv_lhs => rw [← List.reverse_reverse (effectiveBase ⟨key, base⟩).data,
      ← List.takeWhile_append_dropWhile (fun c => c == '/')
        (effectiveBase ⟨key, base⟩).data.reverse]
    rw [List.reverse_append]
    rw [show ((effectiveBase ⟨key, base⟩).data.reverse.takeWhile (fun c => c == '/')).reverse
        = List.replicate
            ((effectiveBase ⟨key, base⟩).data.reverse.takeWhile (fun c => c == '/')).length
            '/' by
      rw [takeWhile_slash_replicate]
      simp [List.reverse_replicate]]
  · refine ⟨(rel.data.takeWhile (fun c => c == '/')).length, ?_⟩
    unfold stripLeadingSlashes
    conv_lhs => rw [← List.takeWhile_append_dropWhile (fun c => c == '/') rel.data]
    rw [← takeWhile_slash_replicate]
  · intro hlast
    unfold stripTrailingSlashes at hlast
    rw [List.getLast?_reverse] at hlast
    have := head?_dropWhile_not (fun c => c == '/') _ _ hlast
    simp at this
  · intro hhead
    unfold stripLeadingSlashes at hhead
    have := head?_dropWhile_not (fun c => c == '/') _ _ hhead
    simp at this

/-- C6 witness: the spec's own example, base `http://x/` joined with
`audio/transcriptions`. -/
theorem url_join_single_slash_witness :
    Client.URL ⟨"sk-key", "http://x/"⟩ "audio/transcriptions"
        = stripTrailingSlashes (effectiveBase ⟨"sk-key", "http://x/"⟩) ++ "/"
            ++ stripLeadingSlashes "audio/transcriptions"
      ∧ (∃ m, (effectiveBase ⟨"sk-key", "http://x/"⟩).data
          = (stripTrailingSlashes (effectiveBase ⟨"sk-key", "http://x/"⟩)).data
              ++ List.replicate m '/')
      ∧ (∃ n, (String.data "audio/transcriptions")
          = List.replicate n '/' ++ (stripLeadingSlashes "audio/transcriptions").data)
      ∧ (stripTrailingSlashes (effectiveBase ⟨"sk-key", "http://x/"⟩)).data.getLast?
          ≠ some '/'
      ∧ (stripLeadingSlashes "audio/transcriptions").data.head? ≠ some '/' :=
  url_join_single_slash "sk-key" "http://x/" "audio/transcriptions" (by decide)

/-- C8: option application is last-write-wins — after any earlier options,
a later `WithModel`, `WithLanguage` or `WithFile` leaves the field at its
own value — and `TranscribeFile` prepends the filename option derived from
the path's base name, so a filename option supplied by the caller
overrides the derived one in the resulting configuration. -/
theorem options_last_write_wins :
    (∀ (tc : TranscribeConfig) (xs : List TranscribeOption) (m : String),
        (applyOpts (xs ++ [WithModel m]) tc).Model = m)
    ∧ (∀ (tc : TranscribeConfig) (xs : List TranscribeOption) (lang : String),
        (applyOpts (xs ++ [WithLanguage lang]) tc).Language = lang)
    ∧ (∀ (tc : TranscribeConfig) (xs : List TranscribeOption) (f : String),
        (applyOpts (xs ++ [WithFile f]) tc).File = f)
    ∧ (∀ (c : Client) (cod : Codecs) (transport : Request → Except String Response)
        (boundary : String) (fs : String → Except String String) (path content : String)
        (opts : List TranscribeOption) (f : String),
        fs path = .ok content →
          c.TranscribeFile cod transport boundary fs path (opts ++ [WithFile f])
              = c.Transcribe cod transport boundary content
                  (WithFile (filepathBase path) :: (opts ++ [WithFile f]))
            ∧ ∀ tc, (applyOpts (WithFile (filepathBase path) :: (opts ++ [WithFile f])) tc).File
                = f) := by
  refine ⟨?_, ?_, ?_, ?_⟩
  · intro tc xs m; rw [show applyOpts (xs ++ [WithModel m]) tc
      = applyOpts [WithModel m] (applyOpts xs tc) from List.foldl_append ..]; rfl
  · intro tc xs lang; rw [show applyOpts (xs ++ [WithLanguage lang]) tc
      = applyOpts [WithLanguage lang] (applyOpts xs tc) from List.foldl_append ..]; rfl
  · intro tc xs f; rw [show applyOpts (xs ++ [WithFile f]) tc
      = applyOpts [WithFile f] (applyOpts xs tc) from List.foldl_append ..]; rfl
  · intro c cod transport boundary fs path content opts f hfs
    refine ⟨?_, ?_⟩
    · unfold Client.TranscribeFile
      rw [hfs]
    · intro tc
      show (applyOpts (opts ++ [WithFile f]) (WithFile (filepathBase path) tc)).File = f
      rw [show applyOpts (opts ++ [WithFile f]) (WithFile (filepathBase path) tc)
        = applyOpts [WithFile f] (applyOpts opts (WithFile (filepathBase path) tc)) from
        List.foldl_append ..]
      rfl

/-- C7: a relative path containing the scheme separator `://` is returned
unchanged by `Client.URL`, whatever the configured base URL. -/
theorem url_absolute_identity (c : Client) (relPath : String)
    (habs : goContains relPath "://" = true) :
    c.URL relPath = relPath := by
  simp [Client.URL, habs]

/-- C7 witness: an absolute URL against a client with a configured base. -/
theorem url_absolute_identity_witness :
    Client.URL ⟨"sk-key", "http://base"⟩ "https://example.com/v1/audio"
      = "https://example.com/v1/audio" :=
  url_absolute_identity ⟨"sk-key", "http://base"⟩ "https://example.com/v1/audio" (by decide)

/-- C3 counterexample: supplying the model option with the empty string.
The claim predicts a `model` form field equal to the option-supplied value
(here `""`), but the code defaults the empty model to `whisper-1` before
building the body, so the sent part is `model = whisper-1`, not
`model = ""`. -/
theorem multipart_model_field_counterexample :
    (Client.Transcribe ⟨"sk-key", ""⟩ refCodecs refusedTransport "bnd" "audio-bytes"
          [WithModel "", WithFile "a.wav"]).sent.map Request.parts
        = [[MultipartPart.field "model" "whisper-1",
            MultipartPart.field "response_format" "verbose_json",
            MultipartPart.file "file" "a.wav" "audio-bytes"]]
      ∧ MultipartPart.field "model" "whisper-1" ≠ MultipartPart.field "model" "" := by
  refine ⟨rfl, fun hcontra => ?_⟩
  rw [MultipartPart.field.injEq] at hcontra
  exact absurd hcontra.2 (by decide)

/-- C3 (amended): for every non-empty credential and non-empty configured
filename, the one request handed to the transport carries a multipart body
of exactly three parts in this order — form field `model` whose value is
the configuration's model with the empty value defaulted to `whisper-1`
(so an option-supplied empty model also yields `whisper-1`), form field
`response_format` with the literal `verbose_json` regardless of options,
and a file part named `file` with the configured filename whose content is
the input stream's bytes verbatim — and the request body bytes are that
part list serialised by the multipart writer. -/
theorem multipart_three_parts (c : Client) (cod : Codecs)
    (transport : Request → Except String Response) (boundary h : String)
    (opts : List TranscribeOption) (hk : c.apiKey ≠ "")
    (hf : (applyOpts opts emptyConfig).File ≠ "") :
    (c.Transcribe cod transport boundary h opts).sent.map Request.parts
        = [[MultipartPart.field "model"
              (if (applyOpts opts emptyConfig).Model = "" then DefaultModel
               else (applyOpts opts emptyConfig).Model),
            MultipartPart.field "response_format" "verbose_json",
            MultipartPart.file "file" ((applyOpts opts emptyConfig).File) h]]
      ∧ (c.Transcribe cod transport boundary h opts).sent.map Request.body
        = [renderMultipart boundary
            [MultipartPart.field "model"
               (if (applyOpts opts emptyConfig).Model = "" then DefaultModel
                else (applyOpts opts emptyConfig).Model),
             MultipartPart.field "response_format" "verbose_json",
             MultipartPart.file "file" ((applyOpts opts emptyConfig).File) h]] := by
  have hfile' : (withDefaultModel (applyOpts opts emptyConfig)).File ≠ "" := by
    rw [withDefaultModel_File]; exact hf
  unfold Client.Transcribe
  rw [if_neg hk, transcribeCore_sent c cod transport boundary h _ hfile']
  constructor
  · simp [buildRequest, withDefaultModel_Model, withDefaultModel_File]
  · simp [buildRequest, withDefaultModel_Model, withDefaultModel_File]

/-- C3 witness: a concrete client, option list and stream. -/
theorem multipart_three_parts_witness :
    (Client.Transcribe ⟨"sk-key", ""⟩ refCodecs refusedTransport "bnd" "audio-bytes"
          [WithModel "base", WithFile "a.wav"]).sent.map Request.parts
        = [[MultipartPart.field "model"
              (if (applyOpts [WithModel "base", WithFile "a.wav"] emptyConfig).Model = ""
               then DefaultModel
               else (applyOpts [WithModel "base", WithFile "a.wav"] emptyConfig).Model),
            MultipartPart.field "response_format" "verbose_json",
            MultipartPart.file "file"
              ((applyOpts [WithModel "base", WithFile "a.wav"] emptyConfig).File)
              "audio-bytes"]]
      ∧ (Client.Transcribe ⟨"sk-key", ""⟩ refCodecs refusedTransport "bnd" "audio-bytes"
          [WithModel "base", WithFile "a.wav"]).sent.map Request.body
        = [renderMultipart "bnd"
            [MultipartPart.field "model"
               (if (applyOpts [WithModel "base", WithFile "a.wav"] emptyConfig).Model = ""
                then DefaultModel
                else (applyOpts [WithModel "base", WithFile "a.wav"] emptyConfig).Model),
             MultipartPart.field "response_format" "verbose_json",
             MultipartPart.file "file"
               ((applyOpts [WithModel "base", WithFile "a.wav"] emptyConfig).File)
               "audio-bytes"]] :=
  multipart_three_parts ⟨"sk-key", ""⟩ refCodecs refusedTransport "bnd" "audio-bytes"
    [WithModel "base", WithFile "a.wav"] (by decide) (by decide)

/-- Reduction of `Transcribe` under a transport that delivers the response
`resp`: once the key and filename checks pass, the run is the decoder
dispatch on the response's `Content-Encoding`. -/
theorem transcribe_ok (c : Client) (cod : Codecs) (boundary h : String)
    (opts : List TranscribeOption) (resp : Response) (hk : c.apiKey ≠ "")
    (hf : (applyOpts opts emptyConfig).File ≠ "") :
    c.Transcribe cod (fun _ => .ok resp) boundary h opts
      = (match decoderFor resp.contentEncoding with
         | .gzip =>
           match cod.gzipNew resp.body with
           | some e =>
             { res := .error (.gzipInit e)
               diag := ""
               sent := [buildRequest c boundary
                 (withDefaultModel (applyOpts opts emptyConfig)) h] }
           | none => finishResponse cod resp (cod.gzipRead resp.body)
               [buildRequest c boundary (withDefaultModel (applyOpts opts emptyConfig)) h]
         | .deflateRaw => finishResponse cod resp (cod.flateRead resp.body)
             [buildRequest c boundary (withDefaultModel (applyOpts opts emptyConfig)) h]
         | .identity => finishResponse cod resp resp.body
             [buildRequest c boundary
               (withDefaultModel (applyOpts opts emptyConfig)) h]) := by
  have hfile' : (withDefaultModel (applyOpts opts emptyConfig)).File ≠ "" := by
    rw [withDefaultModel_File]; exact hf
  unfold Client.Transcribe transcribeCore
  rw [if_neg hk, if_neg hfile']

/-- C4: the body decoder is selected solely from the lower-cased
`Content-Encoding` header value — `gzip` in any letter case selects the
gzip decoder, `deflate` in any letter case selects the raw-DEFLATE decoder
(`Codecs.flateRead`, the semantics of `compress/flate`, with no zlib
framing), and any other value, the absent header's `""` included, passes
the response body through unchanged (observed here on the diagnostic copy
of a non-200 response); responses whose `Content-Encoding` values agree
after lower-casing produce identical runs. -/
theorem decoder_selection (c : Client) (cod : Codecs) (boundary h : String)
    (opts : List TranscribeOption) (resp : Response) (ce' : String)
    (hk : c.apiKey ≠ "") (hf : (applyOpts opts emptyConfig).File ≠ "")
    (hs : resp.statusCode ≠ 200) :
    (goToLower resp.contentEncoding = "gzip" →
        decoderFor resp.contentEncoding = .gzip
        ∧ (cod.gzipNew resp.body = none →
            (c.Transcribe cod (fun _ => .ok resp) boundary h opts).diag
              = cod.gzipRead resp.body))
      ∧ (goToLower resp.contentEncoding = "deflate" →
          decoderFor resp.contentEncoding = .deflateRaw
          ∧ (c.Transcribe cod (fun _ => .ok resp) boundary h opts).diag
              = cod.flateRead resp.body)
      ∧ (goToLower resp.contentEncoding ≠ "gzip" →
          goToLower resp.contentEncoding ≠ "deflate" →
          decoderFor resp.contentEncoding = .identity
          ∧ (c.Transcribe cod (fun _ => .ok resp) boundary h opts).diag = resp.body)
      ∧ (goToLower ce' = goToLower resp.contentEncoding →
          c.Transcribe cod (fun _ => .ok { resp with contentEncoding := ce' })
              boundary h opts
            = c.Transcribe cod (fun _ => .ok resp) boundary h opts) := by
  have hrun := transcribe_ok c cod boundary h opts resp hk hf
  refine ⟨?_, ?_, ?_, ?_⟩
  · intro hce
    have hd : decoderFor resp.contentEncoding = .gzip := by simp [decoderFor, hce]
    refine ⟨hd, fun hgz => ?_⟩
    simp only [hrun, hd, hgz]
    simp [finishResponse, hs]
  · intro hce
    have hd : decoderFor resp.contentEncoding = .deflateRaw := by simp [decoderFor, hce]
    refine ⟨hd, ?_⟩
    simp only [hrun, hd]
    simp [finishResponse, hs]
  · intro hce₁ hce₂
    have hd : decoderFor resp.contentEncoding = .identity := by
      simp [decoderFor, hce₁, hce₂]
    refine ⟨hd, ?_⟩
    simp only [hrun, hd]
    simp [finishResponse, hs]
  · intro hce'
    obtain ⟨sc, st, ce, bd⟩ := resp
    dsimp only at hce' ⊢
    rw [transcribe_ok c cod boundary h opts ⟨sc, st, ce', bd⟩ hk hf,
      transcribe_ok c cod boundary h opts ⟨sc, st, ce, bd⟩ hk hf]
    have hd : decoderFor ce' = decoderFor ce := by
      unfold decoderFor
      rw [show goToLower ce' = goToLower ce from hce']
    rw [hd]
    dsimp only [finishResponse]

/-- C4 witness: a mixed-case `GZip` encoding on a 500 response with a
well-formed gzip header, compared against the spelling `gzip`. -/
theorem decoder_selection_witness :
    (goToLower (Response.contentEncoding ⟨500, "500 Internal Server Error", "GZip",
            "\x1f\x8b\x08rest"⟩) = "gzip" →
        decoderFor (Response.contentEncoding ⟨500, "500 Internal Server Error", "GZip",
            "\x1f\x8b\x08rest"⟩) = .gzip
        ∧ (refCodecs.gzipNew (Response.body ⟨500, "500 Internal Server Error", "GZip",
              "\x1f\x8b\x08rest"⟩) = none →
            (Client.Transcribe ⟨"sk-key", ""⟩ refCodecs
                (fun _ => .ok ⟨500, "500 Internal Server Error", "GZip", "\x1f\x8b\x08rest"⟩)
                "bnd" "audio-bytes" [WithFile "a.wav"]).diag
              = refCodecs.gzipRead (Response.body ⟨500, "500 Internal Server Error", "GZip",
                  "\x1f\x8b\x08rest"⟩)))
      ∧ (goToLower (Response.contentEncoding ⟨500, "500 Internal Server Error", "GZip",
            "\x1f\x8b\x08rest"⟩) = "deflate" →
          decoderFor (Response.contentEncoding ⟨500, "500 Internal Server Error", "GZip",
              "\x1f\x8b\x08rest"⟩) = .deflateRaw
          ∧ (Client.Transcribe ⟨"sk-key", ""⟩ refCodecs
              (fun _ => .ok ⟨500, "500 Internal Server Error", "GZip", "\x1f\x8b\x08rest"⟩)
              "bnd" "audio-bytes" [WithFile "a.wav"]).diag
              = refCodecs.flateRead (Response.body ⟨500, "500 Internal Server Error", "GZip",
                  "\x1f\x8b\x08rest"⟩))
      ∧ (goToLower (Response.contentEncoding ⟨500, "500 Internal Server Error", "GZip",
            "\x1f\x8b\x08rest"⟩) ≠ "gzip" →
          goToLower (Response.contentEncoding ⟨500, "500 Internal Server Error", "GZip",
              "\x1f\x8b\x08rest"⟩) ≠ "deflate" →
          decoderFor (Response.contentEncoding ⟨500, "500 Internal Server Error", "GZip",
              "\x1f\x8b\x08rest"⟩) = .identity
          ∧ (Client.Transcribe ⟨"sk-key", ""⟩ refCodecs
              (fun _ => .ok ⟨500, "500 Internal Server Error", "GZip", "\x1f\x8b\x08rest"⟩)
              "bnd" "audio-bytes" [WithFile "a.wav"]).diag
              = Response.body ⟨500, "500 Internal Server Error", "GZip", "\x1f\x8b\x08rest"⟩)
      ∧ (goToLower "gzip" = goToLower (Response.contentEncoding ⟨500,
            "500 Internal Server Error", "GZip", "\x1f\x8b\x08rest"⟩) →
          Client.Transcribe ⟨"sk-key", ""⟩ refCodecs
              (fun _ => .ok { (⟨500, "500 Internal Server Error", "GZip",
                  "\x1f\x8b\x08rest"⟩ : Response) with contentEncoding := "gzip" })
              "bnd" "audio-bytes" [WithFile "a.wav"]
            = Client.Transcribe ⟨"sk-key", ""⟩ refCodecs
                (fun _ => .ok ⟨500, "500 Internal Server Error", "GZip", "\x1f\x8b\x08rest"⟩)
                "bnd" "audio-bytes" [WithFile "a.wav"]) :=
  decoder_selection ⟨"sk-key", ""⟩ refCodecs "bnd" "audio-bytes" [WithFile "a.wav"]
    ⟨500, "500 Internal Server Error", "GZip", "\x1f\x8b\x08rest"⟩ "gzip"
    (by decide) (by decide) (by decide)

/-- C5 counterexample: a 500 response carrying `Content-Encoding: gzip`
whose body is not a gzip stream (Go's `gzip.NewReader` rejects `junk`, its
first bytes not being the gzip magic). The run fails with the gzip
reader-construction error, not with an error naming the status text, and
nothing is copied to the diagnostic stream — against the claim's
universal statement over all transported non-200 responses. -/
theorem nonok_status_gzip_counterexample :
    (Client.Transcribe ⟨"sk-key", ""⟩ refCodecs
          (fun _ => .ok ⟨500, "500 Internal Server Error", "gzip", "junk"⟩)
          "bnd" "audio-bytes" [WithFile "a.wav"]).res
        = .error (.gzipInit "gzip: invalid header")
      ∧ (Client.Transcribe ⟨"sk-key", ""⟩ refCodecs
          (fun _ => .ok ⟨500, "500 Internal Server Error", "gzip", "junk"⟩)
          "bnd" "audio-bytes" [WithFile "a.wav"]).res
        ≠ .error (.remote ("unexpected response: " ++ "500 Internal Server Error"))
      ∧ (Client.Transcribe ⟨"sk-key", ""⟩ refCodecs
          (fun _ => .ok ⟨500, "500 Internal Server Error", "gzip", "junk"⟩)
          "bnd" "audio-bytes" [WithFile "a.wav"]).diag = "" := by
  refine ⟨rfl, fun hcontra => ?_, rfl⟩
  rw [show (Client.Transcribe ⟨"sk-key", ""⟩ refCodecs
      (fun _ => .ok ⟨500, "500 Internal Server Error", "gzip", "junk"⟩)
      "bnd" "audio-bytes" [WithFile "a.wav"]).res
    = .error (.gzipInit "gzip: invalid header") from rfl] at hcontra
  exact TErr.noConfusion (Except.error.inj hcontra)

/-- C5 (amended): for every transported response whose status is not 200
and whose decompressor setup succeeds (any non-gzip encoding, or a gzip
body the reader construction accepts), the run copies the decompressed
body to the diagnostic stream, fails with the error naming the HTTP status
text, raises no JSON decode error however the body decodes, and returns no
`TranscribeResponse`. -/
theorem nonok_status_remote_error (c : Client) (cod : Codecs) (boundary h : String)
    (opts : List TranscribeOption) (resp : Response) (hk : c.apiKey ≠ "")
    (hf : (applyOpts opts emptyConfig).File ≠ "") (hs : resp.statusCode ≠ 200)
    (hgz : decoderFor resp.contentEncoding = .gzip → cod.gzipNew resp.body = none) :
    (c.Transcribe cod (fun _ => .ok resp) boundary h opts).res
        = .error (.remote ("unexpected response: " ++ resp.status))
      ∧ (c.Transcribe cod (fun _ => .ok resp) boundary h opts).diag
        = (match decoderFor resp.contentEncoding with
           | .gzip => cod.gzipRead resp.body
           | .deflateRaw => cod.flateRead resp.body
           | .identity => resp.body)
      ∧ (∀ e, (c.Transcribe cod (fun _ => .ok resp) boundary h opts).res
          ≠ .error (.decode e))
      ∧ (∀ tr, (c.Transcribe cod (fun _ => .ok resp) boundary h opts).res
          ≠ .ok tr) := by
  have hrun := transcribe_ok c cod boundary h opts resp hk hf
  have hboth : (c.Transcribe cod (fun _ => .ok resp) boundary h opts).res
        = .error (.remote ("unexpected response: " ++ resp.status))
      ∧ (c.Transcribe cod (fun _ => .ok resp) boundary h opts).diag
        = (match decoderFor resp.contentEncoding with
           | .gzip => cod.gzipRead resp.body
           | .deflateRaw => cod.flateRead resp.body
           | .identity => resp.body) := by
    cases hd : decoderFor resp.contentEncoding with
    | gzip =>
      have hn := hgz hd
      simp only [hrun, hd, hn]
      constructor <;> simp [finishResponse, hs]
    | deflateRaw =>
      simp only [hrun, hd]
      constructor <;> simp [finishResponse, hs]
    | identity =>
      simp only [hrun, hd]
      constructor <;> simp [finishResponse, hs]
  refine ⟨hboth.1, hboth.2, fun e hc => ?_, fun tr hc => ?_⟩
  · rw [hboth.1] at hc
    exact TErr.noConfusion (Except.error.inj hc)
  · rw [hboth.1] at hc
    exact Except.noConfusion hc

/-- C5 witness: an identity-encoded 500 response whose body is not JSON. -/
theorem nonok_status_remote_error_witness :
    (Client.Transcribe ⟨"sk-key", ""⟩ refCodecs
          (fun _ => .ok ⟨500, "500 Internal Server Error", "", "oops, not json"⟩)
          "bnd" "audio-bytes" [WithFile "a.wav"]).res
        = .error (.remote ("unexpected response: " ++ "500 Internal Server Error"))
      ∧ (Client.Transcribe ⟨"sk-key", ""⟩ refCodecs
          (fun _ => .ok ⟨500, "500 Internal Server Error", "", "oops, not json"⟩)
          "bnd" "audio-bytes" [WithFile "a.wav"]).diag
        = (match decoderFor (Response.contentEncoding ⟨500, "500 Internal Server Error", "",
              "oops, not json"⟩) with
           | .gzip => refCodecs.gzipRead "oops, not json"
           | .deflateRaw => refCodecs.flateRead "oops, not json"
           | .identity => "oops, not json")
      ∧ (∀ e, (Client.Transcribe ⟨"sk-key", ""⟩ refCodecs
          (fun _ => .ok ⟨500, "500 Internal Server Error", "", "oops, not json"⟩)
          "bnd" "audio-bytes" [WithFile "a.wav"]).res ≠ .error (.decode e))
      ∧ (∀ tr, (Client.Transcribe ⟨"sk-key", ""⟩ refCodecs
          (fun _ => .ok ⟨500, "500 Internal Server Error", "", "oops, not json"⟩)
          "bnd" "audio-bytes" [WithFile "a.wav"]).res ≠ .ok tr) :=
  nonok_status_remote_error ⟨"sk-key", ""⟩ refCodecs "bnd" "audio-bytes"
    [WithFile "a.wav"] ⟨500, "500 Internal Server Error", "", "oops, not json"⟩
    (by decide) (by decide) (by decide) (fun hd => absurd hd (by decide))

/-- C10: decompressor setup precedes the status check — on a response with
a (case-insensitive) gzip `Content-Encoding` whose body the gzip reader
construction rejects with error `e`, `Transcribe` returns that
construction error even when the status is not 200: the caller sees the
decompression error, not the error naming the status text, and nothing is
copied to the diagnostic stream. -/
theorem gzip_error_precedes_status (c : Client) (cod : Codecs) (boundary h : String)
    (opts : List TranscribeOption) (resp : Response) (e : String)
    (hk : c.apiKey ≠ "") (hf : (applyOpts opts emptyConfig).File ≠ "")
    (hce : goToLower resp.contentEncoding = "gzip")
    (hgz : cod.gzipNew resp.body = some e) (_hs : resp.statusCode ≠ 200) :
    (c.Transcribe cod (fun _ => .ok resp) boundary h opts).res = .error (.gzipInit e)
      ∧ (c.Transcribe cod (fun _ => .ok resp) boundary h opts).res
        ≠ .error (.remote ("unexpected response: " ++ resp.status))
      ∧ (c.Transcribe cod (fun _ => .ok resp) boundary h opts).diag = "" := by
  have hrun := transcribe_ok c cod boundary h opts resp hk hf
  have hd : decoderFor resp.contentEncoding = .gzip := by simp [decoderFor, hce]
  have hres : (c.Transcribe cod (fun _ => .ok resp) boundary h opts).res
      = .error (.gzipInit e) := by
    simp [hrun, hd, hgz]
  refine ⟨hres, fun hc => ?_, by simp [hrun, hd, hgz]⟩
  rw [hres] at hc
  exact TErr.noConfusion (Except.error.inj hc)

/-- C10 witness: a mixed-case `GZIP` encoding on a 500 response whose body
`junk` is rejected by the gzip reader construction. -/
theorem gzip_error_precedes_status_witness :
    (Client.Transcribe ⟨"sk-key", ""⟩ refCodecs
          (fun _ => .ok ⟨500, "500 Internal Server Error", "GZIP", "junk"⟩)
          "bnd" "audio-bytes" [WithFile "a.wav"]).res
        = .error (.gzipInit "gzip: invalid header")
      ∧ (Client.Transcribe ⟨"sk-key", ""⟩ refCodecs
          (fun _ => .ok ⟨500, "500 Internal Server Error", "GZIP", "junk"⟩)
          "bnd" "audio-bytes" [WithFile "a.wav"]).res
        ≠ .error (.remote ("unexpected response: " ++ "500 Internal Server Error"))
      ∧ (Client.Transcribe ⟨"sk-key", ""⟩ refCodecs
          (fun _ => .ok ⟨500, "500 Internal Server Error", "GZIP", "junk"⟩)
          "bnd" "audio-bytes" [WithFile "a.wav"]).diag = "" :=
  gzip_error_precedes_status ⟨"sk-key", ""⟩ refCodecs "bnd" "audio-bytes"
    [WithFile "a.wav"] ⟨500, "500 Internal Server Error", "GZIP", "junk"⟩
    "gzip: invalid header" (by decide) (by decide) (by decide) (by decide) (by decide)

/-- Option application transports agreement on the `Model` and `File`
fields: no option reads the configuration, and only `WithLanguage` writes
the `Language` field. -/
theorem applyOpts_denote_model_file (l : List OptSpec) :
    ∀ tc₁ tc₂ : TranscribeConfig, tc₁.Model = tc₂.Model → tc₁.File = tc₂.File →
      (applyOpts (denoteOpts l) tc₁).Model = (applyOpts (denoteOpts l) tc₂).Model
        ∧ (applyOpts (denoteOpts l) tc₁).File = (applyOpts (denoteOpts l) tc₂).File := by
  induction l with
  | nil => exact fun tc₁ tc₂ hm hf => ⟨hm, hf⟩
  | cons o l ih =>
    intro tc₁ tc₂ hm hf
    cases o with
    | model s => exact ih (WithModel s tc₁) (WithModel s tc₂) rfl hf
    | language s => exact ih (WithLanguage s tc₁) (WithLanguage s tc₂) hm hf
    | file s => exact ih (WithFile s tc₁) (WithFile s tc₂) hm rfl

/-- Dropping the `WithLanguage` options from a sequence changes neither the
resulting `Model` nor the resulting `File`. -/
theorem applyOpts_filter_language (l : List OptSpec) :
    ∀ tc : TranscribeConfig,
      (applyOpts (denoteOpts l) tc).Model
          = (applyOpts (denoteOpts (l.filter OptSpec.touchesNonLanguage)) tc).Model
        ∧ (applyOpts (denoteOpts l) tc).File
          = (applyOpts (denoteOpts (l.filter OptSpec.touchesNonLanguage)) tc).File := by
  induction l with
  | nil => exact fun tc => ⟨rfl, rfl⟩
  | cons o l ih =>
    intro tc
    cases o with
    | model s => exact ih (WithModel s tc)
    | language s =>
      have h₁ := applyOpts_denote_model_file l (WithLanguage s tc) tc rfl rfl
      have h₂ := ih tc
      exact ⟨h₁.1.trans h₂.1, h₁.2.trans h₂.2⟩
    | file s => exact ih (WithFile s tc)

/-- The builder `buildRequest` reads only the `Model` and `File` fields of the
configuration. -/
theorem buildRequest_congr (c : Client) (boundary : String) (tc₁ tc₂ : TranscribeConfig)
    (h : String) (hm : tc₁.Model = tc₂.Model) (hf : tc₁.File = tc₂.File) :
    buildRequest c boundary tc₁ h = buildRequest c boundary tc₂ h := by
  unfold buildRequest
  rw [hm, hf]

/-- The post-option pipeline reads only the `Model` and `File` fields of
the configuration. -/
theorem transcribeCore_congr (c : Client) (cod : Codecs)
    (transport : Request → Except String Response) (boundary h : String)
    (tc₁ tc₂ : TranscribeConfig) (hm : tc₁.Model = tc₂.Model)
    (hf : tc₁.File = tc₂.File) :
    transcribeCore c cod transport boundary h tc₁
      = transcribeCore c cod transport boundary h tc₂ := by
  unfold transcribeCore
  rw [buildRequest_congr c boundary tc₁ tc₂ h hm hf, hf]

/-- Model-defaulting preserves agreement on `Model` and `File`. -/
theorem withDefaultModel_congr (tc₁ tc₂ : TranscribeConfig)
    (hm : tc₁.Model = tc₂.Model) (hf : tc₁.File = tc₂.File) :
    (withDefaultModel tc₁).Model = (withDefaultModel tc₂).Model
      ∧ (withDefaultModel tc₁).File = (withDefaultModel tc₂).File := by
  rw [withDefaultModel_Model, withDefaultModel_Model, withDefaultModel_File,
    withDefaultModel_File, hm, hf]
  exact ⟨rfl, rfl⟩

/-- C9: the language option does not influence the request — two option
sequences that agree once their `WithLanguage` options are dropped (so the
resulting configurations can differ only in the `Language` field) give
identical runs: the same request (URL, headers, multipart parts and
byte-identical serialised body) is handed to the transport, and every
observable of the call is the same. -/
theorem language_noninterference (c : Client) (cod : Codecs)
    (transport : Request → Except String Response) (boundary h : String)
    (o₁ o₂ : List OptSpec)
    (hfil : o₁.filter OptSpec.touchesNonLanguage = o₂.filter OptSpec.touchesNonLanguage) :
    c.Transcribe cod transport boundary h (denoteOpts o₁)
      = c.Transcribe cod transport boundary h (denoteOpts o₂) := by
  have h₁ := applyOpts_filter_language o₁ emptyConfig
  have h₂ := applyOpts_filter_language o₂ emptyConfig
  have hm : (applyOpts (denoteOpts o₁) emptyConfig).Model
      = (applyOpts (denoteOpts o₂) emptyConfig).Model := by
    rw [h₁.1, h₂.1, hfil]
  have hf : (applyOpts (denoteOpts o₁) emptyConfig).File
      = (applyOpts (denoteOpts o₂) emptyConfig).File := by
    rw [h₁.2, h₂.2, hfil]
  unfold Client.Transcribe
  by_cases hk : c.apiKey = ""
  · rw [if_pos hk, if_pos hk]
  · rw [if_neg hk, if_neg hk]
    have hc := withDefaultModel_congr _ _ hm hf
    exact transcribeCore_congr c cod transport boundary h _ _ hc.1 hc.2

/-- C9 witness: a sequence with an English language hint after the file
option against one with a French hint before it. -/
theorem language_noninterference_witness :
    Client.Transcribe ⟨"sk-key", ""⟩ refCodecs refusedTransport "bnd" "audio-bytes"
        (denoteOpts [OptSpec.file "a.wav", OptSpec.language "en"])
      = Client.Transcribe ⟨"sk-key", ""⟩ refCodecs refusedTransport "bnd" "audio-bytes"
          (denoteOpts [OptSpec.language "fr", OptSpec.file "a.wav"]) :=
  language_noninterference ⟨"sk-key", ""⟩ refCodecs refusedTransport "bnd" "audio-bytes"
    [OptSpec.file "a.wav", OptSpec.language "en"]
    [OptSpec.language "fr", OptSpec.file "a.wav"] (by decide)

end Whisper
